import Mathlib

/-!
Verification of the auto-remediation control plane (infra-autofix-agent).

This file shallowly embeds the core control-loop components of the
repository and proves properties about them:

* `src/bot/circuit_breaker.py` — the per-target circuit breaker
  (`can_execute`, `record_action`, `reset`);
* `src/bot/bot.py` — the incident deduplicator
  (`should_deduplicate_incident`) and the per-incident body of
  `handle_incidents`, together with the persistence calls of `BotDB`
  modelled as emitted events;
* `src/bot/detectors.py` — the `CPUSpikeDetector`;
* `src/bot/remediation.py` — `RemediationStrategy.get_action_for_incident`.

Timestamps (`time.time()` floats in the source) are modelled as integers;
every compared quantity (window widths, cooldowns, dedup window) is an
integer number of seconds in the source, so only the ordered additive
structure of time is ever used.  The CPU detector compares against the
fractional multiplier `1.2`, so its values are rationals.  Python
dictionaries with default values (`defaultdict`, `dict.get`) are modelled
as total functions updated with `updFn`.
-/

/-- Pointwise update of a total function, modelling assignment into a
Python dictionary (`d[k] = v`). -/
def updFn {α : Type} {β : Type} [DecidableEq α] (f : α → β) (a : α) (v : β) : α → β :=
  fun x => if x = a then v else f x

@[simp] theorem updFn_same {α β : Type} [DecidableEq α] (f : α → β) (a : α) (v : β) :
    updFn f a v a = v := by simp [updFn]

theorem updFn_ne {α β : Type} [DecidableEq α] (f : α → β) (a x : α) (v : β)
    (h : x ≠ a) : updFn f a v x = f x := by simp [updFn, h]

/-! ## Circuit breaker (`src/bot/circuit_breaker.py`) -/

/-- The three circuit states (`'CLOSED'`, `'OPEN'`, `'HALF_OPEN'` strings in
the source). -/
inductive CBState where
  | CLOSED
  | OPEN
  | HALF_OPEN
deriving DecidableEq, Repr

/-- One entry of `CircuitBreaker.circuit_state`: the per-service dict
`{'state', 'opened_at', 'last_attempt', 'failure_count'}`. -/
structure CircuitEntry where
  state : CBState
  opened_at : Option ℤ
  last_attempt : Option ℤ
  failure_count : ℕ
deriving DecidableEq, Repr

/-- The `defaultdict` default for `circuit_state`. -/
def initialEntry : CircuitEntry :=
  { state := .CLOSED, opened_at := none, last_attempt := none, failure_count := 0 }

/-- The `CircuitBreaker` object.  `action_history` is keyed by
`(service_name, action_type)` and defaults to an empty deque;
`circuit_state` is keyed by `service_name` and defaults to
`initialEntry`. -/
structure CircuitBreaker where
  max_failures : ℕ
  window_seconds : ℤ
  cooldown_seconds : ℤ
  action_history : String × String → List ℤ
  circuit_state : String → CircuitEntry

/-- `CircuitBreaker.__init__`: fresh breaker, empty history, all circuits
closed. -/
def CircuitBreaker.init (max_failures : ℕ) (window_seconds cooldown_seconds : ℤ) :
    CircuitBreaker :=
  { max_failures := max_failures
    window_seconds := window_seconds
    cooldown_seconds := cooldown_seconds
    action_history := fun _ => []
    circuit_state := fun _ => initialEntry }

/-- Appending to a `deque(maxlen=100)`: the new element is pushed on the
right and, if the deque is full, the oldest element falls off the left. -/
def pushMaxlen (l : List ℤ) (t : ℤ) : List ℤ :=
  let l2 := l ++ [t]
  l2.drop (l2.length - 100)

/-- Structured rendering of the block reason strings produced by
`can_execute` (the source formats them into log messages; no caller
inspects the text beyond its presence). -/
inductive BlockReason where
  | cooldownActive (remaining : ℤ)
  | windowExceeded (count : ℕ)
deriving DecidableEq, Repr

/-- `CircuitBreaker.can_execute(service_name, action_type)` at time `now`:

1. if the circuit is `OPEN` and the cooldown has not elapsed, block;
2. if the circuit is `OPEN` and the cooldown has elapsed, move to
   `HALF_OPEN` and continue;
3. evict history entries older than `window_seconds` (a `popleft` loop,
   i.e. `dropWhile` on the front of the deque);
4. if at least `max_failures` entries remain, re-open the circuit at `now`
   and block; otherwise allow.

The pruned deque is written back in cases 3–5 (the source mutates the
deque in place).  When the circuit is `OPEN` the source always has
`opened_at` set; `Option.getD 0` stands in for that invariant. -/
def can_execute (cb : CircuitBreaker) (service_name action_type : String) (now : ℤ) :
    (Bool × Option BlockReason) × CircuitBreaker :=
  let key := (service_name, action_type)
  let st := cb.circuit_state service_name
  if st.state = .OPEN ∧ now - st.opened_at.getD 0 < cb.cooldown_seconds then
    ((false, some (.cooldownActive (cb.cooldown_seconds - (now - st.opened_at.getD 0)))), cb)
  else
    let st1 := if st.state = .OPEN then { st with state := .HALF_OPEN } else st
    let cutoff := now - cb.window_seconds
    let pruned := (cb.action_history key).dropWhile (fun t => t < cutoff)
    if cb.max_failures ≤ pruned.length then
      let st2 := { st1 with state := .OPEN, opened_at := some now, failure_count := pruned.length }
      ((false, some (.windowExceeded pruned.length)),
       { cb with action_history := updFn cb.action_history key pruned
                 circuit_state := updFn cb.circuit_state service_name st2 })
    else
      ((true, none),
       { cb with action_history := updFn cb.action_history key pruned
                 circuit_state := updFn cb.circuit_state service_name st1 })

/-- `CircuitBreaker.record_action(service_name, action_type, success)` at
time `now`: append the timestamp to the key's history, set
`last_attempt`; on success in `HALF_OPEN` close the circuit (clearing
`opened_at` and `failure_count`); on failure increment `failure_count`. -/
def record_action (cb : CircuitBreaker) (service_name action_type : String)
    (success : Bool) (now : ℤ) : CircuitBreaker :=
  let key := (service_name, action_type)
  let st := cb.circuit_state service_name
  let hist := pushMaxlen (cb.action_history key) now
  let st1 := { st with last_attempt := some now }
  let st2 :=
    if success ∧ st1.state = .HALF_OPEN then
      { st1 with state := .CLOSED, opened_at := none, failure_count := 0 }
    else if success then st1
    else { st1 with failure_count := st1.failure_count + 1 }
  { cb with action_history := updFn cb.action_history key hist
            circuit_state := updFn cb.circuit_state service_name st2 }

/-- `CircuitBreaker.reset(service_name)`: put the service's circuit entry
back to its initial value.  (The source guards with
`if service_name in self.circuit_state`, but the `defaultdict` default is
exactly the reset value, so the guard is observationally irrelevant.)
The `action_history` dict is not touched by the source. -/
def CircuitBreaker.reset (cb : CircuitBreaker) (service_name : String) : CircuitBreaker :=
  { cb with circuit_state := updFn cb.circuit_state service_name initialEntry }

example :
    (can_execute (CircuitBreaker.init 3 300 120) "svc" "restart_container" 10).1.1 = true := by
  decide

example :
    ((record_action (CircuitBreaker.init 3 300 120) "svc" "restart_container" true 10).action_history
      ("svc", "restart_container")) = [10] := by
  decide

/-! ## Incident deduplication (`AutoRemediationBot.should_deduplicate_incident`) -/

/-- `should_deduplicate_incident` at time `now`.  The state is the
`last_incident_time` dict, modelled as a total map with the source's
`dict.get(incident_type, 0)` default of `0`; the dedup window is the
hard-wired `incident_dedupe_window = 60`.  Returns
`(drop?, updated state)`: an incident seen less than 60 s ago is dropped,
otherwise `last_incident_time[type]` is set to `now` and the incident
passes. -/
def should_deduplicate_incident (last_incident_time : String → ℤ) (now : ℤ)
    (incident_type : String) : Bool × (String → ℤ) :=
  if now - last_incident_time incident_type < 60 then
    (true, last_incident_time)
  else
    (false, updFn last_incident_time incident_type now)

/-- The `last_incident_time` dict at bot start-up: empty, so every lookup
falls back to `0`. -/
def dedupInit : String → ℤ := fun _ => 0

/-- Run the deduplicator over a stream of `(incident_type, time)` checks
and collect the timestamps of the checks of type `ty` that PASSED
(were not dropped). -/
def dedupPassedTimes (st : String → ℤ) (ty : String) :
    List (String × ℤ) → List ℤ
  | [] => []
  | e :: es =>
      let d := should_deduplicate_incident st e.2 e.1
      (if d.1 = false ∧ e.1 = ty then [e.2] else []) ++ dedupPassedTimes d.2 ty es

/-! ## Detectors (`src/bot/detectors.py`) -/

/-- An incident as produced by the detectors: the `type` and `severity`
strings (the `details` payload is not needed for any property here). -/
structure Incident where
  itype : String
  severity : String
deriving DecidableEq, Repr

/-- The threshold config (`self.thresholds`). -/
structure Thresholds where
  error_rate : ℚ
  cpu_percent : ℚ
  response_time_ms : ℚ
deriving DecidableEq, Repr

/-- The slice of a health snapshot consumed by `CPUSpikeDetector`:
`metrics.cpu_usage_percent` (present iff the `metrics` key is) and
`flags.cpu_spike`. -/
structure HealthData where
  cpu_usage_percent : Option ℚ
  cpu_spike_flag : Bool
deriving DecidableEq, Repr

/-- `CPUSpikeDetector.detect`: with no `metrics` key return nothing;
otherwise emit a `cpu_spike` incident when `cpu_percent > threshold` or
the simulated-spike flag is set, with severity `CRITICAL` exactly when
`cpu_percent > threshold * 1.2`, else `WARNING`. -/
def cpuSpikeDetect (th : Thresholds) (h : HealthData) : Option Incident :=
  match h.cpu_usage_percent with
  | none => none
  | some cpu =>
      if cpu > th.cpu_percent ∨ h.cpu_spike_flag then
        some { itype := "cpu_spike"
               severity := if cpu > th.cpu_percent * 1.2 then "CRITICAL" else "WARNING" }
      else none

/-! ## Remediation strategy (`RemediationStrategy.get_action_for_incident`) -/

/-- A remediation action: `action_type` and `target` (the human-readable
`reason` string is not modelled; for `cpu_spike` both severity branches of
the source produce the same `action_type`/`target` and differ only in the
reason text). -/
structure RemAction where
  action_type : String
  target : String
deriving DecidableEq, Repr

/-- `get_action_for_incident`: the four mapped incident types all restart
the primary app container; anything else yields no action. -/
def get_action_for_incident (inc : Incident) : Option RemAction :=
  if inc.itype = "health_check_failed" then
    some { action_type := "restart_container", target := "ar_app" }
  else if inc.itype = "high_error_rate" then
    some { action_type := "restart_container", target := "ar_app" }
  else if inc.itype = "cpu_spike" then
    some { action_type := "restart_container", target := "ar_app" }
  else if inc.itype = "high_response_time" then
    some { action_type := "restart_container", target := "ar_app" }
  else none

/-! ## The per-incident body of `AutoRemediationBot.handle_incidents`

The loop's side effects (notifications and `BotDB` persistence calls) are
modelled as an emitted event list.  The event alphabet also contains
`dbEscalateIncident`, the persistence operation that would set an
incident's status to `ESCALATED` (the `incidents.status` column admits
`'ESCALATED'` in the schema): having it in the alphabet lets theorems
state whether the loop ever invokes it. -/

inductive LoopEvent where
  | notifyIncidentDetected (itype : String)
  | dbLogIncident (result : Option ℕ)
  | notifyCircuitBreakerOpened (target : String)
  | notifyEscalation (target : String)
  | notifyRemediationStarted (action_type target : String)
  | executeAction (action_type target : String)
  | dbLogRemediationAction (incident_id : ℕ) (success : Bool)
  | dbEscalateIncident (incident_id : ℕ)
  | dbUpdateIncidentResolved (incident_id : ℕ)
  | notifyRemediationSuccess (action_type target : String)
  | notifyRemediationFailure (action_type target : String)
deriving DecidableEq, Repr

/-- Is this event an invocation of the actuator? -/
def LoopEvent.isExecuteAction : LoopEvent → Bool
  | .executeAction _ _ => true
  | _ => false

/-- Is this event the persistence operation that marks an incident
`ESCALATED`? -/
def LoopEvent.isDbEscalate : LoopEvent → Bool
  | .dbEscalateIncident _ => true
  | _ => false

/-- Is this event the persistence insert of a remediation-action row? -/
def LoopEvent.isDbLogAction : LoopEvent → Bool
  | .dbLogRemediationAction _ _ => true
  | _ => false

/-- Is this event the persistence update that marks an incident
`RESOLVED`? -/
def LoopEvent.isDbResolve : LoopEvent → Bool
  | .dbUpdateIncidentResolved _ => true
  | _ => false

/-- Is this event an escalation notification? -/
def LoopEvent.isNotifyEscalation : LoopEvent → Bool
  | .notifyEscalation _ => true
  | _ => false

/-- The mutable bot state read and written by one incident iteration. -/
structure LoopState where
  cb : CircuitBreaker
  last_incident_time : String → ℤ

/-- One iteration of the `for incident in incidents` body of
`handle_incidents`, at time `now`.  External outcomes are inputs:
`db` — whether a database handle exists; `log_incident_result` — the id
returned by `BotDB.log_incident` (`none` models its failure path, which
rolls back and returns `None`); `exec_success` — the success flag
returned by `RemediationStrategy.execute_action`.

Control flow mirrors the source: dedup-drop; notify detection; log the
incident if a db is present; map to an action (skip if none); gate
through the breaker (on block: notify breaker-open and escalation, skip);
otherwise notify start, execute, record in the breaker, then — only with
a db present and a non-`None` incident id — log the action row and, on
success, resolve the incident; finally notify the outcome (failure also
notifies escalation). -/
def handleOneIncident (st : LoopState) (now : ℤ) (inc : Incident) (db : Bool)
    (log_incident_result : Option ℕ) (exec_success : Bool) :
    LoopState × List LoopEvent :=
  let d := should_deduplicate_incident st.last_incident_time now inc.itype
  let st := { st with last_incident_time := d.2 }
  if d.1 then (st, [])
  else
    let incident_id := if db then log_incident_result else none
    let ev1 := [LoopEvent.notifyIncidentDetected inc.itype] ++
      (if db then [LoopEvent.dbLogIncident log_incident_result] else [])
    match get_action_for_incident inc with
    | none => (st, ev1)
    | some a =>
        let g := can_execute st.cb a.target a.action_type now
        if g.1.1 = false then
          ({ st with cb := g.2 },
           ev1 ++ [LoopEvent.notifyCircuitBreakerOpened a.target,
                   LoopEvent.notifyEscalation a.target])
        else
          let cb2 := record_action g.2 a.target a.action_type exec_success now
          let ev2 := ev1 ++ [LoopEvent.notifyRemediationStarted a.action_type a.target,
                             LoopEvent.executeAction a.action_type a.target]
          let ev3 := ev2 ++
            (match incident_id with
             | some i =>
                 [LoopEvent.dbLogRemediationAction i exec_success] ++
                   (if exec_success then [LoopEvent.dbUpdateIncidentResolved i] else [])
             | none => [])
          let ev4 := ev3 ++
            (if exec_success then
               [LoopEvent.notifyRemediationSuccess a.action_type a.target]
             else
               [LoopEvent.notifyRemediationFailure a.action_type a.target,
                LoopEvent.notifyEscalation a.target])
          ({ st with cb := cb2 }, ev4)

/-! ## Attempt traces through the breaker -/

/-- One gate-and-maybe-execute attempt as issued by the control loop:
the breaker key `(service, action_type)`, the tick time, and the actuator
outcome that `record_action` would be given. -/
structure AttemptEvent where
  service : String
  action_type : String
  time : ℤ
  success : Bool

/-- `can_execute`; if allowed, the actuator runs and `record_action` is
called (the loop always pairs an allowed gate with a record).  Returns
the new breaker and whether the action was initiated. -/
def attemptStep (cb : CircuitBreaker) (e : AttemptEvent) : CircuitBreaker × Bool :=
  let r := can_execute cb e.service e.action_type e.time
  if r.1.1 then (record_action r.2 e.service e.action_type e.success e.time, true)
  else (r.2, false)

/-- The times of the attempts in `es` against breaker key `key` that the
gate allowed (i.e. the actuator invocations initiated for that
service-and-action-type pair). -/
def initiatedTimes (cb : CircuitBreaker) (key : String × String) :
    List AttemptEvent → List ℤ
  | [] => []
  | e :: es =>
      let r := attemptStep cb e
      (if r.2 = true ∧ (e.service, e.action_type) = key then [e.time] else []) ++
        initiatedTimes r.1 key es

/-- The times of the attempts in `es` against target `svc` that the gate
allowed, counted across ALL action types (the reading of the spec's rate
bound under test). -/
def initiatedTimesForTarget (cb : CircuitBreaker) (svc : String) :
    List AttemptEvent → List ℤ
  | [] => []
  | e :: es =>
      let r := attemptStep cb e
      (if r.2 = true ∧ e.service = svc then [e.time] else []) ++
        initiatedTimesForTarget r.1 svc es

/-- Membership of `s` in the closed window `[u, u + w]`. -/
def inWindow (w u s : ℤ) : Bool := decide (u ≤ s) && decide (s ≤ u + w)

/-! ## Helper lemmas -/

theorem can_execute_window_allows (cb : CircuitBreaker) (svc act : String) (t : ℤ)
    (hno : ¬ ((cb.circuit_state svc).state = .OPEN ∧
      t - (cb.circuit_state svc).opened_at.getD 0 < cb.cooldown_seconds))
    (hwin : ((cb.action_history (svc, act)).dropWhile
      (fun x => x < t - cb.window_seconds)).length < cb.max_failures) :
    can_execute cb svc act t =
      ((true, none),
       { cb with
         action_history := updFn cb.action_history (svc, act)
           ((cb.action_history (svc, act)).dropWhile (fun x => x < t - cb.window_seconds))
         circuit_state := updFn cb.circuit_state svc
           (if (cb.circuit_state svc).state = .OPEN then
              { cb.circuit_state svc with state := .HALF_OPEN }
            else cb.circuit_state svc) }) := by
  rw [can_execute]
  simp only [hno, if_false, Nat.not_le.mpr hwin, if_false]

/-! ## Claim C5 — cooldown enforcement -/

/-- C5: if a target's breaker is `OPEN` with `opened_at = t0`, then any
gate call at a time `t` with `t0 ≤ t < t0 + cooldown_seconds` is blocked
(with the cooldown reason) and leaves the breaker completely unchanged,
so repeated gate calls during the whole interval stay blocked and the
control loop initiates no action against that target before the cooldown
elapses. -/
theorem gate_blocked_during_cooldown (cb : CircuitBreaker) (svc act : String) (t t0 : ℤ)
    (hstate : (cb.circuit_state svc).state = .OPEN)
    (hopened : (cb.circuit_state svc).opened_at = some t0)
    (h0 : t0 ≤ t) (hcd : t - t0 < cb.cooldown_seconds) :
    can_execute cb svc act t =
      ((false, some (.cooldownActive (cb.cooldown_seconds - (t - t0)))), cb) := by
  have _ := h0
  rw [can_execute]
  simp only [hstate, hopened, Option.getD_some, true_and]
  rw [if_pos hcd]

/-- Witness for `gate_blocked_during_cooldown` at a concrete breaker:
opened at time 0, gated at time 60 with a 120 s cooldown. -/
theorem gate_blocked_during_cooldown_witness :
    can_execute
      { max_failures := 3, window_seconds := 300, cooldown_seconds := 120
        action_history := fun _ => []
        circuit_state := updFn (fun _ => initialEntry) "ar_app"
          { state := .OPEN, opened_at := some 0, last_attempt := some 0, failure_count := 3 } }
      "ar_app" "restart_container" 60 =
      ((false, some (.cooldownActive (120 - (60 - 0)))),
       { max_failures := 3, window_seconds := 300, cooldown_seconds := 120
         action_history := fun _ => []
         circuit_state := updFn (fun _ => initialEntry) "ar_app"
           { state := .OPEN, opened_at := some 0, last_attempt := some 0, failure_count := 3 } }) :=
  gate_blocked_during_cooldown _ "ar_app" "restart_container" 60 0
    (by decide) (by decide) (by decide) (by decide)

/-! ## Claim C6 — administrative reset -/

/-- A breaker whose `"svc"` circuit opened after three recorded restart
attempts: the history deque for `("svc", "restart_container")` is
non-empty. -/
def cbTripped : CircuitBreaker :=
  { max_failures := 3, window_seconds := 300, cooldown_seconds := 120
    action_history := updFn (fun _ => []) ("svc", "restart_container") [5, 6, 7]
    circuit_state := updFn (fun _ => initialEntry) "svc"
      { state := .OPEN, opened_at := some 7, last_attempt := some 7, failure_count := 3 } }

/-- Counterexample to C6 as stated: `reset` does put the circuit entry
back to `CLOSED`/zero, but it does NOT empty the target's
`action_history` — the deque still holds the pre-reset timestamps, and a
gate call immediately after the reset (at time `8`, with all three
entries inside the 300 s window) is evaluated against that non-empty
window and blocked, not against an empty one. -/
theorem reset_keeps_history_cex :
    (cbTripped.reset "svc").circuit_state "svc" = initialEntry ∧
    (cbTripped.reset "svc").action_history ("svc", "restart_container") = [5, 6, 7] ∧
    ((cbTripped.reset "svc").action_history ("svc", "restart_container") = [] → False) ∧
    (can_execute (cbTripped.reset "svc") "svc" "restart_container" 8).1.1 = false := by
  decide

/-- C6 amended: the administrative reset transitions the target's circuit
entry to `CLOSED` with `failure_count = 0` and `opened_at` cleared, but
it leaves `action_history` untouched, so an immediately following gate
call for that target is evaluated against the EXISTING attempt window:
it allows exactly when the surviving (un-evicted) entries of the old
history number fewer than `max_failures`. -/
theorem reset_state_only (cb : CircuitBreaker) (svc act : String) (t : ℤ) :
    (cb.reset svc).circuit_state svc = initialEntry ∧
    (cb.reset svc).action_history = cb.action_history ∧
    ((can_execute (cb.reset svc) svc act t).1.1 = true ↔
      ((cb.action_history (svc, act)).dropWhile
        (fun x => x < t - cb.window_seconds)).length < cb.max_failures) := by
  refine ⟨by simp [CircuitBreaker.reset], rfl, ?_⟩
  rw [can_execute]
  simp only [CircuitBreaker.reset, updFn_same, initialEntry]
  norm_num
  constructor
  · intro h
    by_contra hle
    simp [Nat.le_of_not_lt hle] at h
  · intro h
    simp [Nat.not_le.mpr h]

/-! ## Claim C9 — CPU severity at the 1.2× boundary -/

/-- Counterexample to C9 as stated: with the default threshold 80, a
snapshot at exactly `cpuPct = 96 = 1.2 × 80` exceeds the threshold and IS
detected as a `cpu_spike`, but its severity is `WARNING`, not `CRITICAL`:
the severity boundary `cpuPct > 1.2 × threshold` is strict, and equality
falls on the `WARNING` side. -/
theorem cpu_boundary_cex :
    (96 : ℚ) > 80 ∧ (96 : ℚ) = 80 * 1.2 ∧
    cpuSpikeDetect { error_rate := 0.2, cpu_percent := 80, response_time_ms := 500 }
      { cpu_usage_percent := some 96, cpu_spike_flag := false } =
      some { itype := "cpu_spike", severity := "WARNING" } ∧
    ("WARNING" : String) ≠ "CRITICAL" := by
  refine ⟨by norm_num, by norm_num, ?_, by decide⟩
  rw [cpuSpikeDetect]
  norm_num

/-- C9 amended: a snapshot whose `cpuPct` exceeds the threshold and
equals exactly `1.2 ×` the threshold yields a `cpu_spike` incident with
severity `WARNING` (the `CRITICAL` boundary `cpuPct > 1.2 × threshold`
is strict, so equality does not reach it). -/
theorem cpu_boundary_warning (th : Thresholds) (cpu : ℚ) (flag : Bool)
    (hgt : cpu > th.cpu_percent) (heq : cpu = th.cpu_percent * 1.2) :
    cpuSpikeDetect th { cpu_usage_percent := some cpu, cpu_spike_flag := flag } =
      some { itype := "cpu_spike", severity := "WARNING" } := by
  rw [cpuSpikeDetect]
  simp only [gt_iff_lt, hgt, true_or, if_true]
  rw [heq]
  simp [lt_irrefl]

/-- Witness for `cpu_boundary_warning`: threshold 80, `cpuPct = 96`. -/
theorem cpu_boundary_warning_witness :
    cpuSpikeDetect { error_rate := 0.2, cpu_percent := 80, response_time_ms := 500 }
      { cpu_usage_percent := some 96, cpu_spike_flag := false } =
      some { itype := "cpu_spike", severity := "WARNING" } :=
  cpu_boundary_warning { error_rate := 0.2, cpu_percent := 80, response_time_ms := 500 }
    96 false (by norm_num) (by norm_num)

/-! ## Claim C10 — gate never appends to the history -/

theorem can_execute_history_cases (cb : CircuitBreaker) (svc act : String) (t : ℤ) :
    (can_execute cb svc act t).2.action_history = cb.action_history ∨
    (can_execute cb svc act t).2.action_history =
      updFn cb.action_history (svc, act)
        ((cb.action_history (svc, act)).dropWhile (fun x => x < t - cb.window_seconds)) := by
  simp only [can_execute]
  split
  · exact Or.inl rfl
  · split <;> split <;> exact Or.inr rfl

/-- C10: a gate call (`can_execute`) never appends to any history deque:
for every key, the post-gate history is either exactly the old one or the
old one with a prefix of entries older than `window_seconds` evicted — in
particular it is a sublist of the old history.  Entries are appended only
by `record_action`, which pushes the current timestamp onto exactly the
key it is called for and leaves every other key's history unchanged.
So a gate check, allowed or blocked, does not by itself consume the
sliding-window attempt budget. -/
theorem gate_no_append_record_appends (cb : CircuitBreaker) (svc act : String)
    (t : ℤ) (s : Bool) (k : String × String) :
    ((can_execute cb svc act t).2.action_history k = cb.action_history k ∨
      (can_execute cb svc act t).2.action_history k =
        (cb.action_history k).dropWhile (fun x => x < t - cb.window_seconds)) ∧
    List.Sublist ((can_execute cb svc act t).2.action_history k) (cb.action_history k) ∧
    ((record_action cb svc act s t).action_history (svc, act) =
      pushMaxlen (cb.action_history (svc, act)) t) ∧
    (k ≠ (svc, act) →
      (record_action cb svc act s t).action_history k = cb.action_history k) := by
  have hcases : (can_execute cb svc act t).2.action_history k = cb.action_history k ∨
      (can_execute cb svc act t).2.action_history k =
        (cb.action_history k).dropWhile (fun x => x < t - cb.window_seconds) := by
    rcases can_execute_history_cases cb svc act t with h | h
    · exact Or.inl (by rw [h])
    · by_cases hk : k = (svc, act)
      · subst hk
        exact Or.inr (by rw [h, updFn_same])
      · exact Or.inl (by rw [h, updFn_ne _ _ _ _ hk])
  refine ⟨hcases, ?_, ?_, ?_⟩
  · rcases hcases with h | h
    · rw [h]
    · rw [h]; exact List.dropWhile_sublist _
  · rw [record_action]
    exact updFn_same _ _ _
  · intro hk
    rw [record_action]
    exact updFn_ne _ _ _ _ hk

/-- Witness for `gate_no_append_record_appends` at concrete inputs, with
the frame condition for the unrelated key `("other", "x")` discharged. -/
theorem gate_no_append_record_appends_witness :
    ((can_execute (CircuitBreaker.init 3 300 120) "svc" "restart_container" 10).2.action_history
        ("other", "x") = (CircuitBreaker.init 3 300 120).action_history ("other", "x") ∨
      (can_execute (CircuitBreaker.init 3 300 120) "svc" "restart_container" 10).2.action_history
        ("other", "x") =
        ((CircuitBreaker.init 3 300 120).action_history ("other", "x")).dropWhile
          (fun x => x < 10 - (CircuitBreaker.init 3 300 120).window_seconds)) ∧
    List.Sublist
      ((can_execute (CircuitBreaker.init 3 300 120) "svc" "restart_container" 10).2.action_history
        ("other", "x"))
      ((CircuitBreaker.init 3 300 120).action_history ("other", "x")) ∧
    ((record_action (CircuitBreaker.init 3 300 120) "svc" "restart_container" true
        10).action_history ("svc", "restart_container") =
      pushMaxlen ((CircuitBreaker.init 3 300 120).action_history ("svc", "restart_container")) 10) ∧
    ((record_action (CircuitBreaker.init 3 300 120) "svc" "restart_container" true
        10).action_history ("other", "x") =
      (CircuitBreaker.init 3 300 120).action_history ("other", "x")) :=
  let h := gate_no_append_record_appends (CircuitBreaker.init 3 300 120)
    "svc" "restart_container" 10 true ("other", "x")
  ⟨h.1, h.2.1, h.2.2.1, h.2.2.2 (by decide)⟩

/-! ## Claim C1 — cooldown expiry, half-open probe, close on success -/

/-- A breaker that opened at time `0` after three attempts recorded just
before: their timestamps are still inside the 300 s sliding window at
time `120`, when the 120 s cooldown has just elapsed. -/
def cbOpenFullWindow : CircuitBreaker :=
  { max_failures := 3, window_seconds := 300, cooldown_seconds := 120
    action_history := updFn (fun _ => []) ("svc", "restart_container") [-2, -1, 0]
    circuit_state := updFn (fun _ => initialEntry) "svc"
      { state := .OPEN, opened_at := some 0, last_attempt := some 0, failure_count := 3 } }

/-- Counterexample to C1 as stated: the breaker opened at `t0 = 0` and is
gated at `t = 120` with `t - t0 = cooldown_seconds`, yet the gate does
NOT allow the action: the three history entries that tripped the breaker
are still inside the 300 s window (the window outlives the cooldown), so
after the `OPEN → HALF_OPEN` transition the window check immediately
re-opens the circuit (`opened_at` moves to `120`) and blocks. -/
theorem halfopen_probe_cex :
    (120 : ℤ) - 0 ≥ cbOpenFullWindow.cooldown_seconds ∧
    (can_execute cbOpenFullWindow "svc" "restart_container" 120).1.1 = false ∧
    ((can_execute cbOpenFullWindow "svc" "restart_container" 120).2.circuit_state "svc").state
      = .OPEN ∧
    ((can_execute cbOpenFullWindow "svc" "restart_container" 120).2.circuit_state "svc").opened_at
      = some 120 := by
  decide

/-- C1 amended: after the breaker for a target transitioned to `OPEN` at
`t0`, a gate call at any `t` with `t - t0 ≥ cooldown_seconds` transitions
the state to `HALF_OPEN`, and — PROVIDED the history entries for the
gated key that survive the window eviction at `t` number fewer than
`max_failures` — allows the action; an immediately following record for
the same target with `success = true` then transitions the state to
`CLOSED` with `failure_count = 0` and `opened_at` cleared. -/
theorem halfopen_probe_then_close (cb : CircuitBreaker) (svc act : String) (t0 t tr : ℤ)
    (hstate : (cb.circuit_state svc).state = .OPEN)
    (hopened : (cb.circuit_state svc).opened_at = some t0)
    (hcd : cb.cooldown_seconds ≤ t - t0)
    (hwin : ((cb.action_history (svc, act)).dropWhile
      (fun x => x < t - cb.window_seconds)).length < cb.max_failures) :
    (can_execute cb svc act t).1.1 = true ∧
    ((can_execute cb svc act t).2.circuit_state svc).state = .HALF_OPEN ∧
    ((record_action (can_execute cb svc act t).2 svc act true tr).circuit_state svc).state
      = .CLOSED ∧
    ((record_action (can_execute cb svc act t).2 svc act true tr).circuit_state svc).failure_count
      = 0 ∧
    ((record_action (can_execute cb svc act t).2 svc act true tr).circuit_state svc).opened_at
      = none := by
  have hno : ¬ ((cb.circuit_state svc).state = .OPEN ∧
      t - (cb.circuit_state svc).opened_at.getD 0 < cb.cooldown_seconds) := by
    rw [hopened]
    simp only [Option.getD_some]
    intro h
    exact absurd h.2 (not_lt.mpr hcd)
  have hgate := can_execute_window_allows cb svc act t hno hwin
  rw [hgate]
  refine ⟨rfl, ?_, ?_, ?_, ?_⟩ <;>
    simp [record_action, hstate, updFn_same, pushMaxlen]

/-- Witness for `halfopen_probe_then_close`: opened at `0`, all history
entries already outside the window at gate time `400`. -/
theorem halfopen_probe_then_close_witness :
    (can_execute cbOpenFullWindow "svc" "restart_container" 400).1.1 = true ∧
    ((can_execute cbOpenFullWindow "svc" "restart_container" 400).2.circuit_state "svc").state
      = .HALF_OPEN ∧
    ((record_action (can_execute cbOpenFullWindow "svc" "restart_container" 400).2
        "svc" "restart_container" true 401).circuit_state "svc").state = .CLOSED ∧
    ((record_action (can_execute cbOpenFullWindow "svc" "restart_container" 400).2
        "svc" "restart_container" true 401).circuit_state "svc").failure_count = 0 ∧
    ((record_action (can_execute cbOpenFullWindow "svc" "restart_container" 400).2
        "svc" "restart_container" true 401).circuit_state "svc").opened_at = none :=
  halfopen_probe_then_close cbOpenFullWindow "svc" "restart_container" 0 400 401
    (by decide) (by decide) (by decide) (by decide)

/-! ## Claim C2 — gate rejection escalates by notification only -/

/-- A loop state whose breaker for the primary target `"ar_app"` is
`OPEN` inside its cooldown at time `1060`, and whose dedup map passes
everything at that time. -/
def stBlocked : LoopState :=
  { cb := { max_failures := 3, window_seconds := 300, cooldown_seconds := 120
            action_history := fun _ => []
            circuit_state := updFn (fun _ => initialEntry) "ar_app"
              { state := .OPEN, opened_at := some 1000, last_attempt := some 1000
                failure_count := 3 } }
    last_incident_time := fun _ => 0 }

/-- The incident used in the concrete loop runs. -/
def incCpu : Incident := { itype := "cpu_spike", severity := "CRITICAL" }

/-- Counterexample to C2 as stated: at time `1060` the breaker blocks the
mapped action for `incCpu` (cooldown still running), and the loop run
does emit the escalation notification and no actuator call — but it
performs NO persistence operation that sets the incident's status to
`ESCALATED`: the emitted event list contains no `dbEscalateIncident`
(indeed `BotDB` has no such method to call). -/
theorem blocked_gate_no_db_escalate_cex :
    (can_execute stBlocked.cb "ar_app" "restart_container" 1060).1.1 = false ∧
    (handleOneIncident stBlocked 1060 incCpu true (some 7) true).2.countP
      LoopEvent.isDbEscalate = 0 ∧
    (handleOneIncident stBlocked 1060 incCpu true (some 7) true).2.countP
      LoopEvent.isNotifyEscalation = 1 ∧
    (handleOneIncident stBlocked 1060 incCpu true (some 7) true).2.countP
      LoopEvent.isExecuteAction = 0 := by
  decide

/-- C2 amended: when the circuit breaker blocks an incident's mapped
action, the loop emits the breaker-opened and escalation notifications
and skips the incident — it makes no actuator call (no retry), performs
no resolution — but it does NOT touch the incident's persisted status:
no `ESCALATED` status write (nor any persistence escalate operation) is
issued. -/
theorem blocked_gate_notifies_only (st : LoopState) (now : ℤ) (inc : Incident)
    (db : Bool) (lid : Option ℕ) (es : Bool) (a : RemAction)
    (hd : (should_deduplicate_incident st.last_incident_time now inc.itype).1 = false)
    (ha : get_action_for_incident inc = some a)
    (hb : (can_execute st.cb a.target a.action_type now).1.1 = false) :
    (handleOneIncident st now inc db lid es).2.countP LoopEvent.isDbEscalate = 0 ∧
    LoopEvent.notifyEscalation a.target ∈ (handleOneIncident st now inc db lid es).2 ∧
    (handleOneIncident st now inc db lid es).2.countP LoopEvent.isExecuteAction = 0 ∧
    (handleOneIncident st now inc db lid es).2.countP LoopEvent.isDbResolve = 0 := by
  rw [handleOneIncident]
  simp only [hd, if_false, ha, hb, if_true, Bool.false_eq_true]
  cases db <;>
    simp [List.countP_append, List.countP_cons, LoopEvent.isDbEscalate,
      LoopEvent.isExecuteAction, LoopEvent.isDbResolve, List.countP, List.countP.go]

/-- Witness for `blocked_gate_notifies_only` at the concrete blocked
state. -/
theorem blocked_gate_notifies_only_witness :
    (handleOneIncident stBlocked 1060 incCpu true (some 7) true).2.countP
      LoopEvent.isDbEscalate = 0 ∧
    LoopEvent.notifyEscalation "ar_app" ∈
      (handleOneIncident stBlocked 1060 incCpu true (some 7) true).2 ∧
    (handleOneIncident stBlocked 1060 incCpu true (some 7) true).2.countP
      LoopEvent.isExecuteAction = 0 ∧
    (handleOneIncident stBlocked 1060 incCpu true (some 7) true).2.countP
      LoopEvent.isDbResolve = 0 :=
  blocked_gate_notifies_only stBlocked 1060 incCpu true (some 7) true
    { action_type := "restart_container", target := "ar_app" }
    (by decide) (by decide) (by decide)

/-! ## Claim C3 — behaviour when the incident insert fails -/

/-- A fresh loop state: breaker closed and empty, dedup map empty. -/
def stFresh : LoopState :=
  { cb := CircuitBreaker.init 3 300 120, last_incident_time := fun _ => 0 }

/-- Counterexample to C3 as stated: with a database present but
`log_incident` failing (returning `None`, so no incident id exists), the
loop does NOT abandon the incident: it still emits the actuator call for
the mapped action (and records it in the breaker) — it merely skips the
persistence of the action row and of any resolution. -/
theorem failed_log_incident_cex :
    (handleOneIncident stFresh 100 incCpu true none true).2.countP
      LoopEvent.isExecuteAction = 1 ∧
    (handleOneIncident stFresh 100 incCpu true none true).2.countP
      LoopEvent.isDbLogAction = 0 ∧
    (handleOneIncident stFresh 100 incCpu true none true).2.countP
      LoopEvent.isDbResolve = 0 := by
  decide

/-- C3 amended: if the persistence write in `log_incident` fails (no
incident id is produced) while a database is present, the control loop
STILL takes the remediation action for the incident — the actuator is
invoked and the attempt is recorded in the circuit breaker — but the
action row and any resolution are not persisted (they require the
missing incident id). -/
theorem failed_log_incident_still_executes (st : LoopState) (now : ℤ) (inc : Incident)
    (es : Bool) (a : RemAction)
    (hd : (should_deduplicate_incident st.last_incident_time now inc.itype).1 = false)
    (ha : get_action_for_incident inc = some a)
    (hg : (can_execute st.cb a.target a.action_type now).1.1 = true) :
    (handleOneIncident st now inc true none es).2.countP LoopEvent.isExecuteAction = 1 ∧
    (handleOneIncident st now inc true none es).2.countP LoopEvent.isDbLogAction = 0 ∧
    (handleOneIncident st now inc true none es).2.countP LoopEvent.isDbResolve = 0 ∧
    (handleOneIncident st now inc true none es).1.cb =
      record_action (can_execute st.cb a.target a.action_type now).2
        a.target a.action_type es now := by
  rw [handleOneIncident]
  simp only [hd, if_false, ha, hg, Bool.true_eq_false, if_true]
  cases es <;>
    simp [List.countP_append, List.countP_cons, LoopEvent.isExecuteAction,
      LoopEvent.isDbLogAction, LoopEvent.isDbResolve, List.countP, List.countP.go]

/-- Witness for `failed_log_incident_still_executes` at the fresh state. -/
theorem failed_log_incident_still_executes_witness :
    (handleOneIncident stFresh 100 incCpu true none true).2.countP
      LoopEvent.isExecuteAction = 1 ∧
    (handleOneIncident stFresh 100 incCpu true none true).2.countP
      LoopEvent.isDbLogAction = 0 ∧
    (handleOneIncident stFresh 100 incCpu true none true).2.countP
      LoopEvent.isDbResolve = 0 ∧
    (handleOneIncident stFresh 100 incCpu true none true).1.cb =
      record_action (can_execute stFresh.cb "ar_app" "restart_container" 100).2
        "ar_app" "restart_container" true 100 :=
  failed_log_incident_still_executes stFresh 100 incCpu true
    { action_type := "restart_container", target := "ar_app" }
    (by decide) (by decide) (by decide)

/-! ## Claim C8 — resolution only after a successful action -/

/-- C8: whenever a loop iteration emits the persistence update that marks
incident `i` `RESOLVED`, the executed action succeeded
(`exec_success = true`) and the same iteration previously emitted the
action-row insert for the SAME incident id with `success = true`: the
two-event sequence `[dbLogRemediationAction i true,
dbUpdateIncidentResolved i]` is a subsequence of the emitted events.  In
particular, when the executed action fails the loop never resolves the
incident. -/
theorem resolve_only_after_success (st : LoopState) (now : ℤ) (inc : Incident)
    (db : Bool) (lid : Option ℕ) (es : Bool) (i : ℕ)
    (hmem : LoopEvent.dbUpdateIncidentResolved i ∈ (handleOneIncident st now inc db lid es).2) :
    es = true ∧
    List.Sublist
      [LoopEvent.dbLogRemediationAction i true, LoopEvent.dbUpdateIncidentResolved i]
      (handleOneIncident st now inc db lid es).2 := by
  cases hd : (should_deduplicate_incident st.last_incident_time now inc.itype).1 with
  | true => simp [handleOneIncident, hd] at hmem
  | false =>
    cases ha : get_action_for_incident inc with
    | none =>
        cases db <;> simp [handleOneIncident, hd, ha] at hmem
    | some a =>
        cases hb : (can_execute st.cb a.target a.action_type now).1.1 with
        | false =>
            cases db <;> simp [handleOneIncident, hd, ha, hb] at hmem
        | true =>
            cases db with
            | false =>
                cases es <;> simp [handleOneIncident, hd, ha, hb] at hmem
            | true =>
                cases lid with
                | none => cases es <;> simp [handleOneIncident, hd, ha, hb] at hmem
                | some j =>
                    cases es with
                    | false => simp [handleOneIncident, hd, ha, hb] at hmem
                    | true =>
                        have hij : i = j := by
                          simpa [handleOneIncident, hd, ha, hb] using hmem
                        subst hij
                        refine ⟨rfl, ?_⟩
                        simp only [handleOneIncident, hd, ha, hb, Bool.false_eq_true,
                          if_false, if_true]
                        refine List.Sublist.trans ?_ (List.sublist_append_left _ _)
                        exact (List.nil_sublist _).append (List.Sublist.refl _)

/-- Witness for `resolve_only_after_success`: a successful concrete run
with incident id 7. -/
theorem resolve_only_after_success_witness :
    true = true ∧
    List.Sublist
      [LoopEvent.dbLogRemediationAction 7 true, LoopEvent.dbUpdateIncidentResolved 7]
      (handleOneIncident stFresh 100 incCpu true (some 7) true).2 :=
  resolve_only_after_success stFresh 100 incCpu true (some 7) true 7 (by decide)

/-! ## Claim C7 — at most one incident per type per 60 s window -/

theorem pairwise_filter_le_one {α : Type} (r : α → α → Prop) (p : α → Bool) (l : List α)
    (h : l.Pairwise r) (hpq : ∀ a b, r a b → p a = true → p b = true → False) :
    (l.filter p).length ≤ 1 := by
  have hf := h.filter p
  cases hfp : l.filter p with
  | nil => simp
  | cons x xs =>
    cases xs with
    | nil => simp
    | cons y ys =>
      exfalso
      rw [hfp] at hf
      have hxy : r x y := by
        have h2 := List.pairwise_cons.mp hf
        exact h2.1 y (List.mem_cons_self _ _)
      have hx : p x = true := by
        have hxmem : x ∈ l.filter p := by rw [hfp]; exact List.mem_cons_self _ _
        exact (List.mem_filter.mp hxmem).2
      have hy : p y = true := by
        have hymem : y ∈ l.filter p := by rw [hfp]; simp
        exact (List.mem_filter.mp hymem).2
      exact hpq x y hxy hx hy

theorem dedupPassed_invariant (ty : String) (es : List (String × ℤ)) :
    ∀ (st : String → ℤ) (passed : List ℤ),
      List.Pairwise (fun a b => a + 60 ≤ b) passed →
      (∀ s ∈ passed, s ≤ st ty) →
      List.Pairwise (fun a b => a + 60 ≤ b) (passed ++ dedupPassedTimes st ty es) := by
  induction es with
  | nil =>
      intro st passed hp hb
      simpa [dedupPassedTimes] using hp
  | cons e es ih =>
      intro st passed hp hb
      by_cases hdrop : e.2 - st e.1 < 60
      · have hd : should_deduplicate_incident st e.2 e.1 = (true, st) := by
          rw [should_deduplicate_incident, if_pos hdrop]
        rw [dedupPassedTimes, hd]
        simpa using ih st passed hp hb
      · have hd : should_deduplicate_incident st e.2 e.1 = (false, updFn st e.1 e.2) := by
          rw [should_deduplicate_incident, if_neg hdrop]
        rw [dedupPassedTimes, hd]
        by_cases hty : e.1 = ty
        · have hp' : List.Pairwise (fun a b => a + 60 ≤ b) (passed ++ [e.2]) := by
            refine List.pairwise_append.mpr ⟨hp, by simp, ?_⟩
            intro a ha b hbm
            simp only [List.mem_singleton] at hbm
            subst hbm
            have h1 := hb a ha
            rw [hty] at hdrop
            omega
          have hb' : ∀ s ∈ passed ++ [e.2], s ≤ updFn st e.1 e.2 ty := by
            intro s hs
            rw [hty, updFn_same]
            rcases List.mem_append.mp hs with h | h
            · have h1 := hb s h
              rw [hty] at hdrop
              omega
            · simp only [List.mem_singleton] at h
              omega
          have hrec := ih (updFn st e.1 e.2) (passed ++ [e.2]) hp' hb'
          rw [if_pos (⟨rfl, hty⟩ : (false = false ∧ e.1 = ty))]
          simpa [List.append_assoc] using hrec
        · have hb' : ∀ s ∈ passed, s ≤ updFn st e.1 e.2 ty := by
            intro s hs
            rw [updFn_ne st e.1 ty e.2 (fun h => hty h.symm)]
            exact hb s hs
          rw [if_neg (fun h => hty h.2)]
          simpa using ih (updFn st e.1 e.2) passed hp hb'

/-- C7: over any stream of incident checks, the loop passes through (does
not deduplicate) at most one incident of each type `ty` within any
60-second window `[u, u + 60)`: any two distinct pass-through times for
the same type are at least 60 s apart.  The mechanism conjuncts restate
the single check: an incident whose type was seen less than 60 s ago is
dropped (the drop flag is exactly `now - lastSeen[ty] < 60`), and a check
that passes records `lastSeen[ty] = now` while a dropped one leaves the
map unchanged. -/
theorem dedup_window_bound (es : List (String × ℤ)) (ty : String) (u : ℤ)
    (st : String → ℤ) (now : ℤ) :
    ((dedupPassedTimes dedupInit ty es).filter
      (fun s => decide (u ≤ s) && decide (s < u + 60))).length ≤ 1 ∧
    (should_deduplicate_incident st now ty).1 = decide (now - st ty < 60) ∧
    (should_deduplicate_incident st now ty).2 ty =
      (if now - st ty < 60 then st ty else now) := by
  refine ⟨?_, ?_, ?_⟩
  case refine_2 =>
    rw [should_deduplicate_incident]
    by_cases h : now - st ty < 60
    · simp [h]
    · simp [h]
  case refine_3 =>
    rw [should_deduplicate_incident]
    by_cases h : now - st ty < 60
    · simp [h]
    · simp [h]
  have hp : List.Pairwise (fun a b => a + 60 ≤ b) (dedupPassedTimes dedupInit ty es) := by
    have h1 := dedupPassed_invariant ty es dedupInit [] (by simp) (by simp)
    simpa using h1
  apply pairwise_filter_le_one _ _ _ hp
  intro a b hr hpa hpb
  simp only [Bool.and_eq_true, decide_eq_true_eq] at hpa hpb
  omega

/-! ## Claim C4 — breaker rate bound

The sliding-window invariant: along a run, for a fixed breaker key `k`,
`hist` is the stored deque, `inits` the times of all initiated actions
for `k` so far, and `T` the current time.  The deque is a suffix of
`inits` from which only entries older than `T - w` have been evicted,
all initiation times are in the past, and every closed window of width
`w` contains at most `maxF` initiations. -/
def RateInv (w : ℤ) (maxF : ℕ) (hist inits : List ℤ) (T : ℤ) : Prop :=
  (∃ pre, inits = pre ++ hist ∧ ∀ s ∈ pre, s < T - w) ∧
  (∀ s ∈ inits, s ≤ T) ∧
  (∀ u, ((inits.filter (fun s => inWindow w u s)).length ≤ maxF))

theorem pushMaxlen_append (l : List ℤ) (t : ℤ) (h : l.length < 100) :
    pushMaxlen l t = l ++ [t] := by
  have h0 : (l ++ [t]).length - 100 = 0 := by
    simp only [List.length_append, List.length_singleton]
    omega
  simp only [pushMaxlen]
  rw [h0, List.drop_zero]

theorem rateInv_mono (w : ℤ) (maxF : ℕ) (hist inits : List ℤ) (T T' : ℤ)
    (h : T ≤ T') (hinv : RateInv w maxF hist inits T) :
    RateInv w maxF hist inits T' := by
  obtain ⟨⟨pre, hpre, hpre2⟩, hle, hbound⟩ := hinv
  exact ⟨⟨pre, hpre, fun s hs => by have := hpre2 s hs; omega⟩,
         fun s hs => by have := hle s hs; omega, hbound⟩

theorem rateInv_prune (w : ℤ) (maxF : ℕ) (hist inits : List ℤ) (T t : ℤ)
    (hT : T ≤ t) (hinv : RateInv w maxF hist inits T) :
    RateInv w maxF (hist.dropWhile (fun x => x < t - w)) inits t := by
  obtain ⟨⟨pre, hpre, hpre2⟩, hle, hbound⟩ := hinv
  refine ⟨⟨pre ++ hist.takeWhile (fun x => x < t - w), ?_, ?_⟩,
          fun s hs => by have := hle s hs; omega, hbound⟩
  · rw [hpre]
    conv_lhs => rw [← List.takeWhile_append_dropWhile (p := fun x : ℤ => x < t - w) (l := hist)]
    rw [List.append_assoc]
  · intro s hs
    rcases List.mem_append.mp hs with h | h
    · have := hpre2 s h; omega
    · have := List.mem_takeWhile_imp h
      simpa using this

theorem rateInv_snoc (w : ℤ) (maxF : ℕ) (hist inits : List ℤ) (t : ℤ)
    (hinv : RateInv w maxF hist inits t) (hlen : hist.length < maxF) :
    RateInv w maxF (hist ++ [t]) (inits ++ [t]) t := by
  obtain ⟨⟨pre, hpre, hpre2⟩, hle, hbound⟩ := hinv
  refine ⟨⟨pre, by rw [hpre, List.append_assoc], hpre2⟩, ?_, ?_⟩
  · intro s hs
    rcases List.mem_append.mp hs with h | h
    · exact hle s h
    · simp only [List.mem_singleton] at h
      omega
  · intro u
    rw [List.filter_append]
    by_cases hpt : inWindow w u t = true
    · have hwin : u ≤ t ∧ t ≤ u + w := by
        simpa [inWindow] using hpt
      have hft : List.filter (fun s => inWindow w u s) [t] = [t] := by
        simp [hpt]
      rw [hft]
      have hcount : (inits.filter (fun s => inWindow w u s)).length ≤ hist.length := by
        rw [hpre, List.filter_append]
        have hprefilter : pre.filter (fun s => inWindow w u s) = [] := by
          rw [List.filter_eq_nil_iff]
          intro a ha
          have h1 := hpre2 a ha
          simp only [inWindow, Bool.and_eq_true, decide_eq_true_eq, not_and]
          intro h2
          omega
        rw [hprefilter, List.nil_append]
        exact List.length_filter_le _ hist
      simp only [List.length_append, List.length_singleton]
      omega
    · have hft : List.filter (fun s => inWindow w u s) [t] = [] := by
        simp only [Bool.not_eq_true] at hpt
        simp [hpt]
      rw [hft, List.append_nil]
      exact hbound u

theorem rateInv_step (cb : CircuitBreaker) (e : AttemptEvent) (k : String × String)
    (inits : List ℤ) (T : ℤ)
    (h100 : cb.max_failures ≤ 100)
    (hT : T ≤ e.time)
    (hinv : RateInv cb.window_seconds cb.max_failures (cb.action_history k) inits T) :
    RateInv cb.window_seconds cb.max_failures
      ((attemptStep cb e).1.action_history k)
      (inits ++ (if (attemptStep cb e).2 = true ∧ (e.service, e.action_type) = k
                 then [e.time] else []))
      e.time := by
  by_cases h1 : (cb.circuit_state e.service).state = .OPEN ∧
      e.time - (cb.circuit_state e.service).opened_at.getD 0 < cb.cooldown_seconds
  · have hcan : can_execute cb e.service e.action_type e.time =
        ((false, some (.cooldownActive (cb.cooldown_seconds -
          (e.time - (cb.circuit_state e.service).opened_at.getD 0)))), cb) := by
      rw [can_execute, if_pos h1]
    have hstep : attemptStep cb e = (cb, false) := by
      rw [attemptStep, hcan]
      rfl
    rw [hstep]
    simp only [Bool.false_eq_true, false_and, if_false, List.append_nil]
    exact rateInv_mono _ _ _ _ _ _ hT hinv
  · by_cases h2 : cb.max_failures ≤
        ((cb.action_history (e.service, e.action_type)).dropWhile
          (fun x => x < e.time - cb.window_seconds)).length
    · have hfalse : (can_execute cb e.service e.action_type e.time).1.1 = false := by
        rw [can_execute]
        simp only [h1, if_false, h2, if_true]
      have hhist : (can_execute cb e.service e.action_type e.time).2.action_history =
          updFn cb.action_history (e.service, e.action_type)
            ((cb.action_history (e.service, e.action_type)).dropWhile
              (fun x => x < e.time - cb.window_seconds)) := by
        rw [can_execute]
        simp only [h1, if_false, h2, if_true]
      have hstep : attemptStep cb e = ((can_execute cb e.service e.action_type e.time).2, false) := by
        rw [attemptStep]
        simp only [hfalse, Bool.false_eq_true, if_false]
      rw [hstep]
      simp only [Bool.false_eq_true, false_and, if_false, List.append_nil, hhist]
      by_cases hk : (e.service, e.action_type) = k
      · rw [← hk, updFn_same]
        rw [← hk] at hinv
        exact rateInv_prune _ _ _ _ _ _ hT hinv
      · rw [updFn_ne _ _ _ _ (fun h => hk h.symm)]
        exact rateInv_mono _ _ _ _ _ _ hT hinv
    · have hwin : ((cb.action_history (e.service, e.action_type)).dropWhile
          (fun x => x < e.time - cb.window_seconds)).length < cb.max_failures :=
        Nat.not_le.mp h2
      have hcan := can_execute_window_allows cb e.service e.action_type e.time h1 hwin
      have htrue : (can_execute cb e.service e.action_type e.time).1.1 = true := by
        rw [hcan]
      have hstep1 : (attemptStep cb e).1 =
          record_action (can_execute cb e.service e.action_type e.time).2
            e.service e.action_type e.success e.time := by
        rw [attemptStep]
        simp only [htrue, if_true]
      have hstep2 : (attemptStep cb e).2 = true := by
        rw [attemptStep]
        simp only [htrue, if_true]
      have hcanhist : (can_execute cb e.service e.action_type e.time).2.action_history =
          updFn cb.action_history (e.service, e.action_type)
            ((cb.action_history (e.service, e.action_type)).dropWhile
              (fun x => x < e.time - cb.window_seconds)) := by
        rw [hcan]
      by_cases hk : (e.service, e.action_type) = k
      · have hdelta : (if (attemptStep cb e).2 = true ∧ (e.service, e.action_type) = k
            then [e.time] else []) = [e.time] := by
          rw [if_pos ⟨hstep2, hk⟩]
        rw [hdelta, hstep1]
        rw [record_action]
        simp only [hcanhist]
        rw [← hk, updFn_same, updFn_same]
        rw [pushMaxlen_append _ _ (by omega)]
        rw [← hk] at hinv
        exact rateInv_snoc _ _ _ _ _
          (rateInv_prune _ _ _ _ _ _ hT hinv) hwin
      · have hdelta : (if (attemptStep cb e).2 = true ∧ (e.service, e.action_type) = k
            then [e.time] else []) = [] := by
          rw [if_neg (fun h => hk h.2)]
        rw [hdelta, hstep1]
        rw [record_action]
        simp only [hcanhist, List.append_nil]
        rw [updFn_ne _ _ _ _ (fun h => hk h.symm),
            updFn_ne _ _ _ _ (fun h => hk h.symm)]
        exact rateInv_mono _ _ _ _ _ _ hT hinv

theorem can_execute_params (cb : CircuitBreaker) (svc act : String) (t : ℤ) :
    (can_execute cb svc act t).2.max_failures = cb.max_failures ∧
    (can_execute cb svc act t).2.window_seconds = cb.window_seconds := by
  simp only [can_execute]
  split
  · exact ⟨rfl, rfl⟩
  · split <;> split <;> exact ⟨rfl, rfl⟩

theorem record_action_params (cb : CircuitBreaker) (svc act : String) (s : Bool) (t : ℤ) :
    (record_action cb svc act s t).max_failures = cb.max_failures ∧
    (record_action cb svc act s t).window_seconds = cb.window_seconds := by
  rw [record_action]
  exact ⟨rfl, rfl⟩

theorem attemptStep_params (cb : CircuitBreaker) (e : AttemptEvent) :
    (attemptStep cb e).1.max_failures = cb.max_failures ∧
    (attemptStep cb e).1.window_seconds = cb.window_seconds := by
  rw [attemptStep]
  by_cases h : (can_execute cb e.service e.action_type e.time).1.1 = true
  · rw [if_pos h]
    refine ⟨?_, ?_⟩
    · exact (record_action_params _ _ _ _ _).1.trans (can_execute_params cb _ _ _).1
    · exact (record_action_params _ _ _ _ _).2.trans (can_execute_params cb _ _ _).2
  · rw [if_neg h]
    exact can_execute_params cb _ _ _

theorem rateInv_run (k : String × String) (es : List AttemptEvent) :
    ∀ (cb : CircuitBreaker) (inits : List ℤ) (T : ℤ),
      cb.max_failures ≤ 100 →
      List.Chain (fun a b => a ≤ b) T (es.map AttemptEvent.time) →
      RateInv cb.window_seconds cb.max_failures (cb.action_history k) inits T →
      ∀ u, ((inits ++ initiatedTimes cb k es).filter
        (fun s => inWindow cb.window_seconds u s)).length ≤ cb.max_failures := by
  induction es with
  | nil =>
      intro cb inits T h100 hch hinv u
      simpa [initiatedTimes] using hinv.2.2 u
  | cons e es ih =>
      intro cb inits T h100 hch hinv u
      rw [List.map_cons, List.chain_cons] at hch
      obtain ⟨hTe, hch'⟩ := hch
      have hstep := rateInv_step cb e k inits T h100 hTe hinv
      have hp1 := (attemptStep_params cb e).1
      have hp2 := (attemptStep_params cb e).2
      have hres := ih (attemptStep cb e).1
        (inits ++ (if (attemptStep cb e).2 = true ∧ (e.service, e.action_type) = k
                   then [e.time] else []))
        e.time (by rw [hp1]; exact h100) hch' (by rw [hp1, hp2]; exact hstep)
      have hres2 := hres u
      rw [hp1, hp2] at hres2
      rw [initiatedTimes]
      simpa [List.append_assoc] using hres2

/-- C4 amended: for every target, every ACTION TYPE and every sliding
time window of width `window_seconds`, the number of actuator
invocations the control loop initiates for that (target, action type)
pair within the window is at most `max_failures` — for any attempt trace
with non-decreasing times, starting from a fresh breaker (whose
`max_failures` fits the deque capacity of 100).  The bound is per
breaker key `(service, action_type)`, not per target across action
types. -/
theorem breaker_rate_bound (maxF : ℕ) (w cd : ℤ) (es : List AttemptEvent)
    (svc act : String) (T0 u : ℤ)
    (h100 : maxF ≤ 100)
    (hch : List.Chain (fun a b => a ≤ b) T0 (es.map AttemptEvent.time)) :
    ((initiatedTimes (CircuitBreaker.init maxF w cd) (svc, act) es).filter
      (fun s => inWindow w u s)).length ≤ maxF := by
  have hinv : RateInv w maxF [] [] T0 :=
    ⟨⟨[], by simp, by simp⟩, by simp, by simp⟩
  have h := rateInv_run (svc, act) es (CircuitBreaker.init maxF w cd) [] T0 h100 hch hinv u
  exact h

/-- An attempt trace against one target `"svc"` that alternates two
action types: three successful restarts, then three successful
replica-starts, all within seconds of each other. -/
def crossTypeTrace : List AttemptEvent :=
  [{ service := "svc", action_type := "restart_container", time := 0, success := true },
   { service := "svc", action_type := "restart_container", time := 1, success := true },
   { service := "svc", action_type := "restart_container", time := 2, success := true },
   { service := "svc", action_type := "start_replica", time := 3, success := true },
   { service := "svc", action_type := "start_replica", time := 4, success := true },
   { service := "svc", action_type := "start_replica", time := 5, success := true }]

/-- Counterexample to C4 as stated: the breaker's attempt history is
keyed by `(service, action_type)`, so the `max_failures = 3` budget is
per action type, NOT per target across all action types.  Running
`crossTypeTrace` against a fresh breaker (`max_failures = 3`,
`window_seconds = 300`), every one of the six gates is allowed: the
target `"svc"` receives 6 actuator invocations inside the single window
`[0, 300]`, exceeding `max_failures = 3`. -/
theorem breaker_rate_bound_cex :
    (CircuitBreaker.init 3 300 120).max_failures = 3 ∧
    ((initiatedTimesForTarget (CircuitBreaker.init 3 300 120) "svc" crossTypeTrace).filter
      (fun s => inWindow 300 0 s)).length = 6 ∧
    ¬ (((initiatedTimesForTarget (CircuitBreaker.init 3 300 120) "svc" crossTypeTrace).filter
      (fun s => inWindow 300 0 s)).length ≤ (CircuitBreaker.init 3 300 120).max_failures) := by
  decide

/-- Witness for `breaker_rate_bound`: the same trace, but counted for the
single key `("svc", "restart_container")` — only 3 of the 6 invocations
belong to it, within the bound. -/
theorem breaker_rate_bound_witness :
    ((initiatedTimes (CircuitBreaker.init 3 300 120) ("svc", "restart_container")
      crossTypeTrace).filter (fun s => inWindow 300 0 s)).length ≤ 3 :=
  breaker_rate_bound 3 300 120 crossTypeTrace "svc" "restart_container" 0 0
    (by decide) (by norm_num [crossTypeTrace, List.chain_cons])
